import Mathlib

/-!
Shallow embedding of the pongxelflut game core (src/main.rs).

Machine `i16` values are modelled as `ℤ` (claims carry range hypotheses
where overflow or division sign could matter); `f32` values are modelled
as `ℝ`, with the `as i16` cast modelled as truncation toward zero.
Rust `i16` division truncates toward zero, so it is `Int.tdiv`;
`f32::floor` on an exact quotient is floor division, `Int.ediv`.
-/

namespace Pongxelflut

/-- Height of a paddle, as a fraction of the playfield height (1/7). -/
def PADDLE_HEIGHT_NUM : ℤ := 1
def PADDLE_HEIGHT_DEN : ℤ := 7
/-- Width of a paddle. -/
def PADDLE_WIDTH : ℤ := 47
/-- Gap to left or right, as a fraction of the playfield width (1/9). -/
def PADDLE_GAP_DEN : ℤ := 9
/-- Size of the ball. -/
def BALL_SIZE : ℤ := 58
noncomputable def BALL_SPEED : ℝ := 30
def PADDLE_SPEED : ℤ := 17

/-- Maximum reflection angle off a paddle: FRAC_PI_4. -/
noncomputable def MAX_REFLECT_ANGLE : ℝ := Real.pi / 4

/-- FRAME_TIME = Duration::from_millis(1000 / 30), in nanoseconds.
1000 / 30 truncates to 33 milliseconds. -/
def FRAME_TIME : ℕ := 33 * 1000000

/-- glam I16Vec2, with components widened to ℤ. -/
structure I16Vec2 where
  x : ℤ
  y : ℤ
deriving DecidableEq

/-- Rust i16 truncating division, applied componentwise as glam does. -/
def I16Vec2.tdiv (v : I16Vec2) (d : ℤ) : I16Vec2 :=
  ⟨v.x.tdiv d, v.y.tdiv d⟩

def I16Vec2.add (a b : I16Vec2) : I16Vec2 := ⟨a.x + b.x, a.y + b.y⟩

def I16Vec2.sub (a b : I16Vec2) : I16Vec2 := ⟨a.x - b.x, a.y - b.y⟩

/-- Rust's `x as i16` cast of an f32, in range: truncation toward zero. -/
noncomputable def truncToInt (x : ℝ) : ℤ := if 0 ≤ x then ⌊x⌋ else ⌈x⌉

/-- Rust `Ord::clamp` on i16 (callers keep lo ≤ hi). -/
def iclamp (v lo hi : ℤ) : ℤ := max lo (min v hi)

/-- The four-valued directional intent of a paddle. -/
inductive PlayerDir where
  | Up
  | Down
  | Neutral
  | Both
deriving DecidableEq

namespace PlayerDir

def press_up : PlayerDir → PlayerDir
  | Up | Neutral => Up
  | Down | Both => Both

def press_down : PlayerDir → PlayerDir
  | Down | Neutral => Down
  | Up | Both => Both

def release_up : PlayerDir → PlayerDir
  | Up | Neutral => Neutral
  | Down | Both => Down

def release_down : PlayerDir → PlayerDir
  | Down | Neutral => Neutral
  | Up | Both => Up

end PlayerDir

/-- The five recognized logical keys (src/input.rs). -/
inductive Key where
  | W
  | S
  | Up
  | Down
  | Space
deriving DecidableEq

/-- Key transition state from the input backend. -/
inductive KeyState where
  | Pressed
  | Released
deriving DecidableEq

/-- The authoritative world model. -/
structure GameState where
  size : I16Vec2
  ball : I16Vec2
  ball_angle : ℝ
  ball_is_moving : Bool
  player1 : I16Vec2
  player2 : I16Vec2
  player1_dir : PlayerDir
  player2_dir : PlayerDir
  paddle_height : ℤ

namespace GameState

/-- GameState::new (the Arc/RwLock wrapper is dropped in the embedding). -/
def new (size : I16Vec2) : GameState :=
  let paddle_height := Int.ediv size.y PADDLE_HEIGHT_DEN
  let paddle_y := (size.y - paddle_height).tdiv 2
  { size := size
    ball := size.tdiv 2
    ball_angle := 0
    player1 := ⟨Int.ediv size.x PADDLE_GAP_DEN, paddle_y⟩
    player2 := ⟨size.x - Int.ediv size.x PADDLE_GAP_DEN - PADDLE_WIDTH, paddle_y⟩
    ball_is_moving := false
    player1_dir := PlayerDir.Neutral
    player2_dir := PlayerDir.Neutral
    paddle_height := paddle_height }

/-- Step 1 of GameState::update: paddle movement by intent, then clamping. -/
def dirDelta : PlayerDir → ℤ
  | PlayerDir.Up => -PADDLE_SPEED
  | PlayerDir.Down => PADDLE_SPEED
  | PlayerDir.Neutral | PlayerDir.Both => 0

def movePaddles (s : GameState) : GameState :=
  let p1 := s.player1.add ⟨0, dirDelta s.player1_dir⟩
  let p2 := s.player2.add ⟨0, dirDelta s.player2_dir⟩
  { s with
    player1 := ⟨p1.x, iclamp p1.y 0 (s.size.y - s.paddle_height)⟩
    player2 := ⟨p2.x, iclamp p2.y 0 (s.size.y - s.paddle_height)⟩ }

/-- Step 2: ball translation when the ball is moving. -/
noncomputable def translateBall (s : GameState) : GameState :=
  if s.ball_is_moving then
    { s with ball := (s.ball.add
        ⟨truncToInt (Real.cos s.ball_angle * BALL_SPEED),
         truncToInt (Real.sin s.ball_angle * BALL_SPEED)⟩) }
  else s

/-- Step 3: wall bounce on the vertical bounds. -/
noncomputable def wallBounce (s : GameState) : GameState :=
  if s.ball.y < 0 ∨ s.ball.y > s.size.y then
    { s with
      ball_angle := Real.pi * 2 - s.ball_angle
      ball := ⟨s.ball.x, iclamp s.ball.y 0 s.size.y⟩ }
  else s

/-- Collision condition for paddle 1 (geometric containment and cosine sign). -/
def collides1 (s : GameState) : Prop :=
  s.ball.x > s.player1.x ∧ s.ball.x < s.player1.x + PADDLE_WIDTH ∧
  s.ball.y > s.player1.y ∧ s.ball.y < s.player1.y + s.paddle_height ∧
  Real.cos s.ball_angle < 0

/-- Normalized impact offset for paddle 1. -/
noncomputable def collisionPos1 (s : GameState) : ℝ :=
  -(((s.paddle_height.tdiv 2) - (s.ball.y - s.player1.y) : ℤ) : ℝ) /
    ((s.paddle_height.tdiv 2 : ℤ) : ℝ)

open Classical in
/-- Step 4a: paddle 1 collision. -/
noncomputable def collide1 (s : GameState) : GameState :=
  if collides1 s then
    { s with ball_angle := MAX_REFLECT_ANGLE * collisionPos1 s }
  else s

/-- Collision condition for paddle 2. -/
def collides2 (s : GameState) : Prop :=
  s.ball.x > s.player2.x ∧ s.ball.x < s.player2.x + PADDLE_WIDTH ∧
  s.ball.y > s.player2.y ∧ s.ball.y < s.player2.y + s.paddle_height ∧
  Real.cos s.ball_angle > 0

/-- Normalized impact offset for paddle 2. -/
noncomputable def collisionPos2 (s : GameState) : ℝ :=
  (((s.paddle_height.tdiv 2) - (s.ball.y - s.player2.y) : ℤ) : ℝ) /
    ((s.paddle_height.tdiv 2 : ℤ) : ℝ)

open Classical in
/-- Step 4b: paddle 2 collision. -/
noncomputable def collide2 (s : GameState) : GameState :=
  if collides2 s then
    { s with ball_angle := MAX_REFLECT_ANGLE * collisionPos2 s - Real.pi }
  else s

/-- Step 5: scoring with ball reset. -/
noncomputable def score (s : GameState) : GameState :=
  if s.ball.x > s.size.x then
    { s with
      ball_is_moving := false
      ball := (s.size.tdiv 2).add ⟨s.size.x.tdiv 3, 0⟩
      ball_angle := Real.pi }
  else if s.ball.x < 0 then
    { s with
      ball_is_moving := false
      ball := (s.size.tdiv 2).sub ⟨s.size.x.tdiv 3, 0⟩
      ball_angle := 0 }
  else s

/-- GameState::update, one physics tick: the five steps in source order. -/
noncomputable def update (s : GameState) : GameState :=
  score (collide2 (collide1 (wallBounce (translateBall (movePaddles s)))))

/-- GameState::handle_press. -/
def handle_press (s : GameState) (key : Key) (state : KeyState) : GameState :=
  let s' :=
    match key, state with
    | Key.W, KeyState.Pressed => { s with player1_dir := s.player1_dir.press_up }
    | Key.S, KeyState.Pressed => { s with player1_dir := s.player1_dir.press_down }
    | Key.W, KeyState.Released => { s with player1_dir := s.player1_dir.release_up }
    | Key.S, KeyState.Released => { s with player1_dir := s.player1_dir.release_down }
    | Key.Up, KeyState.Pressed => { s with player2_dir := s.player2_dir.press_up }
    | Key.Down, KeyState.Pressed => { s with player2_dir := s.player2_dir.press_down }
    | Key.Up, KeyState.Released => { s with player2_dir := s.player2_dir.release_up }
    | Key.Down, KeyState.Released => { s with player2_dir := s.player2_dir.release_down }
    | Key.Space, _ => s
  if state = KeyState.Pressed then { s' with ball_is_moving := true } else s'

end GameState

/-- One iteration of the Simulation Driver loop (main): given the current
accumulator and the wall-clock time elapsed since the last iteration (both in
nanoseconds), return the new accumulator, the number of physics ticks
performed, and the sleep duration. -/
def driverStep (delta elapsed : ℕ) : ℕ × ℕ × ℕ :=
  let d := delta + elapsed
  if FRAME_TIME < d then (d - FRAME_TIME, 1, 0)
  else (d, 0, FRAME_TIME / 2)

/-- Iterated driver loop over a list of elapsed wall-clock intervals:
returns the final accumulator and the total number of ticks performed. -/
def driverRun (delta : ℕ) : List ℕ → ℕ × ℕ
  | [] => (delta, 0)
  | e :: es =>
    let st := driverStep delta e
    let rest := driverRun st.1 es
    (rest.1, st.2.1 + rest.2)

/-- Press/release events on one control pair (one player's two keys). -/
inductive PEvent where
  | press_up
  | press_down
  | release_up
  | release_down
deriving DecidableEq

/-- Dispatch one control-pair event through the intent state machine. -/
def PlayerDir.applyEvent (p : PlayerDir) : PEvent → PlayerDir
  | PEvent.press_up => p.press_up
  | PEvent.press_down => p.press_down
  | PEvent.release_up => p.release_up
  | PEvent.release_down => p.release_down

/-- Run a sequence of control-pair events from the initial Neutral intent. -/
def runPEvents (l : List PEvent) : PlayerDir :=
  l.foldl PlayerDir.applyEvent PlayerDir.Neutral

/-- Reference model of which keys are physically held: (up held, down held). -/
def heldStep : Bool × Bool → PEvent → Bool × Bool
  | (_, d), PEvent.press_up => (true, d)
  | (u, _), PEvent.press_down => (u, true)
  | (_, d), PEvent.release_up => (false, d)
  | (u, _), PEvent.release_down => (u, false)

/-- The held-key set after a sequence of events, starting from nothing held. -/
def heldAfter (l : List PEvent) : Bool × Bool :=
  l.foldl heldStep (false, false)

/-- The intent a held-key set denotes. -/
def ofHeld : Bool × Bool → PlayerDir
  | (false, false) => PlayerDir.Neutral
  | (true, false) => PlayerDir.Up
  | (false, true) => PlayerDir.Down
  | (true, true) => PlayerDir.Both

/-- Events the world model handles: physics ticks and recognized key events. -/
inductive GEvent where
  | tick
  | key (k : Key) (st : KeyState)

/-- One handled event applied to the world model. -/
noncomputable def stepEvent (s : GameState) : GEvent → GameState
  | GEvent.tick => s.update
  | GEvent.key k st => s.handle_press k st

/-- A trace of handled events applied to the world model. -/
noncomputable def runTrace (s : GameState) (l : List GEvent) : GameState :=
  l.foldl stepEvent s

/-- Overwrite both paddles' intents (the Input Dispatcher's effect on the
intent fields, abstracted). -/
def GameState.setDirs (s : GameState) (d : PlayerDir × PlayerDir) : GameState :=
  { s with player1_dir := d.1, player2_dir := d.2 }

/-- One physics tick performed under the given pair of intents. -/
noncomputable def tickWith (s : GameState) (d : PlayerDir × PlayerDir) : GameState :=
  (s.setDirs d).update

/-- A sequence of physics ticks, each under its own pair of intents. -/
noncomputable def runTicks (s : GameState) (ds : List (PlayerDir × PlayerDir)) : GameState :=
  ds.foldl tickWith s

/-- The ball lies within the playfield rectangle. -/
def ballInBounds (s : GameState) : Prop :=
  0 ≤ s.ball.x ∧ s.ball.x ≤ s.size.x ∧ 0 ≤ s.ball.y ∧ s.ball.y ≤ s.size.y

/-- Whether a handled event is a key press. -/
def GEvent.press_flag : GEvent → Bool
  | GEvent.key _ KeyState.Pressed => true
  | _ => false

/-- Sizes are nonnegative, and a resting ball lies on the playfield: the
inductive invariant carried along every reachable state. -/
def movingInv (s : GameState) : Prop :=
  0 ≤ s.size.x ∧ 0 ≤ s.size.y ∧
  (s.ball_is_moving = false → ballInBounds s)

/-- A concrete world state on an 800 by 600 playfield used to witness the
theorems: ball just past the right edge, both paddles at rest in range. -/
def state800 : GameState :=
  { size := ⟨800, 600⟩
    ball := ⟨801, 300⟩
    ball_angle := 0
    ball_is_moving := false
    player1 := ⟨88, 257⟩
    player2 := ⟨666, 257⟩
    player1_dir := PlayerDir.Neutral
    player2_dir := PlayerDir.Neutral
    paddle_height := 85 }

section Preservation

open GameState

variable (s : GameState)

theorem translateBall_not_moving (h : s.ball_is_moving = false) :
    translateBall s = s := by
  unfold translateBall; rw [h]; simp

@[simp] theorem movePaddles_size : (movePaddles s).size = s.size := rfl
@[simp] theorem movePaddles_ball : (movePaddles s).ball = s.ball := rfl
@[simp] theorem movePaddles_angle : (movePaddles s).ball_angle = s.ball_angle := rfl
@[simp] theorem movePaddles_moving :
    (movePaddles s).ball_is_moving = s.ball_is_moving := rfl
@[simp] theorem movePaddles_height :
    (movePaddles s).paddle_height = s.paddle_height := rfl

@[simp] theorem translateBall_size : (translateBall s).size = s.size := by
  unfold translateBall; split <;> rfl
@[simp] theorem translateBall_player1 :
    (translateBall s).player1 = s.player1 := by
  unfold translateBall; split <;> rfl
@[simp] theorem translateBall_player2 :
    (translateBall s).player2 = s.player2 := by
  unfold translateBall; split <;> rfl
@[simp] theorem translateBall_angle :
    (translateBall s).ball_angle = s.ball_angle := by
  unfold translateBall; split <;> rfl
@[simp] theorem translateBall_moving :
    (translateBall s).ball_is_moving = s.ball_is_moving := by
  unfold translateBall; split <;> rfl
@[simp] theorem translateBall_height :
    (translateBall s).paddle_height = s.paddle_height := by
  unfold translateBall; split <;> rfl

@[simp] theorem wallBounce_size : (wallBounce s).size = s.size := by
  unfold wallBounce; split <;> rfl
@[simp] theorem wallBounce_ball_x : (wallBounce s).ball.x = s.ball.x := by
  unfold wallBounce; split <;> rfl
@[simp] theorem wallBounce_player1 : (wallBounce s).player1 = s.player1 := by
  unfold wallBounce; split <;> rfl
@[simp] theorem wallBounce_player2 : (wallBounce s).player2 = s.player2 := by
  unfold wallBounce; split <;> rfl
@[simp] theorem wallBounce_moving :
    (wallBounce s).ball_is_moving = s.ball_is_moving := by
  unfold wallBounce; split <;> rfl
@[simp] theorem wallBounce_height :
    (wallBounce s).paddle_height = s.paddle_height := by
  unfold wallBounce; split <;> rfl

@[simp] theorem collide1_size : (collide1 s).size = s.size := by
  unfold collide1; split <;> rfl
@[simp] theorem collide1_ball : (collide1 s).ball = s.ball := by
  unfold collide1; split <;> rfl
@[simp] theorem collide1_player1 : (collide1 s).player1 = s.player1 := by
  unfold collide1; split <;> rfl
@[simp] theorem collide1_player2 : (collide1 s).player2 = s.player2 := by
  unfold collide1; split <;> rfl
@[simp] theorem collide1_moving :
    (collide1 s).ball_is_moving = s.ball_is_moving := by
  unfold collide1; split <;> rfl
@[simp] theorem collide1_height :
    (collide1 s).paddle_height = s.paddle_height := by
  unfold collide1; split <;> rfl

@[simp] theorem collide2_size : (collide2 s).size = s.size := by
  unfold collide2; split <;> rfl
@[simp] theorem collide2_ball : (collide2 s).ball = s.ball := by
  unfold collide2; split <;> rfl
@[simp] theorem collide2_player1 : (collide2 s).player1 = s.player1 := by
  unfold collide2; split <;> rfl
@[simp] theorem collide2_player2 : (collide2 s).player2 = s.player2 := by
  unfold collide2; split <;> rfl
@[simp] theorem collide2_moving :
    (collide2 s).ball_is_moving = s.ball_is_moving := by
  unfold collide2; split <;> rfl
@[simp] theorem collide2_height :
    (collide2 s).paddle_height = s.paddle_height := by
  unfold collide2; split <;> rfl

@[simp] theorem score_size : (score s).size = s.size := by
  unfold score; split <;> first | rfl | (split <;> rfl)
@[simp] theorem score_player1 : (score s).player1 = s.player1 := by
  unfold score; split <;> first | rfl | (split <;> rfl)
@[simp] theorem score_player2 : (score s).player2 = s.player2 := by
  unfold score; split <;> first | rfl | (split <;> rfl)
@[simp] theorem score_height : (score s).paddle_height = s.paddle_height := by
  unfold score; split <;> first | rfl | (split <;> rfl)

/-- Scoring branch characterizations. -/
theorem score_of_gt (h : s.ball.x > s.size.x) :
    score s = { s with
      ball_is_moving := false
      ball := (s.size.tdiv 2).add ⟨s.size.x.tdiv 3, 0⟩
      ball_angle := Real.pi } := by
  unfold score; rw [if_pos h]

theorem score_of_lt (h1 : ¬ s.ball.x > s.size.x) (h2 : s.ball.x < 0) :
    score s = { s with
      ball_is_moving := false
      ball := (s.size.tdiv 2).sub ⟨s.size.x.tdiv 3, 0⟩
      ball_angle := 0 } := by
  unfold score; rw [if_neg h1, if_pos h2]

theorem score_of_inside (h1 : ¬ s.ball.x > s.size.x) (h2 : ¬ s.ball.x < 0) :
    score s = s := by
  unfold score; rw [if_neg h1, if_neg h2]

end Preservation

/-- C2: the intent state machine is a total function over the 4 states and 4
events with exactly the table: press-up maps Neutral/Up to Up and Down/Both
to Both; press-down maps Neutral/Down to Down and Up/Both to Both; release-up
maps Neutral/Up to Neutral and Down/Both to Down; release-down maps
Neutral/Down to Neutral and Up/Both to Up. -/
theorem intent_transition_table :
    (PlayerDir.Neutral.press_up = PlayerDir.Up ∧
     PlayerDir.Up.press_up = PlayerDir.Up ∧
     PlayerDir.Down.press_up = PlayerDir.Both ∧
     PlayerDir.Both.press_up = PlayerDir.Both) ∧
    (PlayerDir.Neutral.press_down = PlayerDir.Down ∧
     PlayerDir.Down.press_down = PlayerDir.Down ∧
     PlayerDir.Up.press_down = PlayerDir.Both ∧
     PlayerDir.Both.press_down = PlayerDir.Both) ∧
    (PlayerDir.Neutral.release_up = PlayerDir.Neutral ∧
     PlayerDir.Up.release_up = PlayerDir.Neutral ∧
     PlayerDir.Down.release_up = PlayerDir.Down ∧
     PlayerDir.Both.release_up = PlayerDir.Down) ∧
    (PlayerDir.Neutral.release_down = PlayerDir.Neutral ∧
     PlayerDir.Down.release_down = PlayerDir.Neutral ∧
     PlayerDir.Up.release_down = PlayerDir.Up ∧
     PlayerDir.Both.release_down = PlayerDir.Up) := by
  decide

/-- Stepping the state machine from an intent denoted by a held-key set
agrees with stepping the held-key set itself. -/
theorem applyEvent_ofHeld (hb : Bool × Bool) (e : PEvent) :
    (ofHeld hb).applyEvent e = ofHeld (heldStep hb e) := by
  rcases hb with ⟨u, d⟩
  cases u <;> cases d <;> cases e <;> rfl

/-- Folding the state machine from a held-denoted intent tracks the held-key
model over any event list. -/
theorem foldl_applyEvent_ofHeld (l : List PEvent) (hb : Bool × Bool) :
    l.foldl PlayerDir.applyEvent (ofHeld hb) = ofHeld (l.foldl heldStep hb) := by
  induction l generalizing hb with
  | nil => rfl
  | cons e es ih =>
    simp only [List.foldl_cons, applyEvent_ofHeld, ih]

/-- C3: from the initial Neutral intent, the resulting intent after any finite
event sequence is determined solely by the currently held key set (none held
gives Neutral, only up gives Up, only down gives Down, both give Both), hence
invariant to the order in which still-held keys were pressed; in particular
press-up, press-down, release-up yields Down and press-down, press-up,
release-down yields Up. -/
theorem intent_determined_by_held_keys :
    (∀ l : List PEvent, runPEvents l = ofHeld (heldAfter l)) ∧
    runPEvents [PEvent.press_up, PEvent.press_down, PEvent.release_up] =
      PlayerDir.Down ∧
    runPEvents [PEvent.press_down, PEvent.press_up, PEvent.release_down] =
      PlayerDir.Up := by
  refine ⟨fun l => ?_, rfl, rfl⟩
  have h : ofHeld (false, false) = PlayerDir.Neutral := rfl
  rw [runPEvents, heldAfter, ← h, foldl_applyEvent_ofHeld]

section MainTheorems

open GameState

/-- A right exit after translation makes the tick score for player 1. -/
theorem update_right_exit (s : GameState)
    (h : (translateBall (movePaddles s)).ball.x > s.size.x) :
    (update s).ball_is_moving = false ∧
    (update s).ball = ⟨s.size.x.tdiv 2 + s.size.x.tdiv 3, s.size.y.tdiv 2⟩ ∧
    (update s).ball_angle = Real.pi := by
  have hgt :
      (collide2 (collide1 (wallBounce (translateBall (movePaddles s))))).ball.x >
      (collide2 (collide1 (wallBounce (translateBall (movePaddles s))))).size.x := by
    simpa using h
  unfold update
  rw [score_of_gt _ hgt]
  refine ⟨rfl, ?_, rfl⟩
  simp [I16Vec2.add, I16Vec2.tdiv]

/-- A left exit after translation makes the tick score for player 2. -/
theorem update_left_exit (s : GameState) (hx0 : 0 ≤ s.size.x)
    (h : (translateBall (movePaddles s)).ball.x < 0) :
    (update s).ball_is_moving = false ∧
    (update s).ball = ⟨s.size.x.tdiv 2 - s.size.x.tdiv 3, s.size.y.tdiv 2⟩ ∧
    (update s).ball_angle = 0 := by
  have hlt :
      (collide2 (collide1 (wallBounce (translateBall (movePaddles s))))).ball.x
        < 0 := by
    simpa using h
  have hngt :
      ¬ (collide2 (collide1 (wallBounce (translateBall (movePaddles s))))).ball.x >
      (collide2 (collide1 (wallBounce (translateBall (movePaddles s))))).size.x := by
    simp only [collide2_ball, collide1_ball, collide2_size, collide1_size,
      wallBounce_ball_x, wallBounce_size, translateBall_size, movePaddles_size]
    simp only [collide2_ball, collide1_ball, wallBounce_ball_x] at hlt
    omega
  unfold update
  rw [score_of_lt _ hngt hlt]
  refine ⟨rfl, ?_, rfl⟩
  simp [I16Vec2.sub, I16Vec2.tdiv]

/-- C1: if after ball translation the ball's x strictly exceeds the playfield
width, the tick stops the ball, relocates it to one-third of the playfield
width right of center (integer division) and sets the angle to pi;
symmetrically, if the translated x is negative the ball stops, is relocated
one-third width left of center, and the angle becomes 0; on an 800 by 600
playfield a rightward exit repositions the ball to (400 + 266, 300) with
angle pi. -/
theorem scoring_on_horizontal_exit (s : GameState) :
    ((translateBall (movePaddles s)).ball.x > s.size.x →
      (update s).ball_is_moving = false ∧
      (update s).ball = ⟨s.size.x.tdiv 2 + s.size.x.tdiv 3, s.size.y.tdiv 2⟩ ∧
      (update s).ball_angle = Real.pi) ∧
    (0 ≤ s.size.x → (translateBall (movePaddles s)).ball.x < 0 →
      (update s).ball_is_moving = false ∧
      (update s).ball = ⟨s.size.x.tdiv 2 - s.size.x.tdiv 3, s.size.y.tdiv 2⟩ ∧
      (update s).ball_angle = 0) ∧
    (s.size = ⟨800, 600⟩ →
      (translateBall (movePaddles s)).ball.x > 800 →
      (update s).ball = ⟨400 + 266, 300⟩ ∧
      (update s).ball_angle = Real.pi ∧
      (update s).ball_is_moving = false) := by
  refine ⟨update_right_exit s, update_left_exit s, fun hsz h => ?_⟩
  have h800 : (translateBall (movePaddles s)).ball.x > s.size.x := by
    rw [hsz]; exact h
  have main := update_right_exit s h800
  refine ⟨?_, main.2.2, main.1⟩
  rw [main.2.1, hsz]
  decide

/-- Witness for C1 at a concrete state: the ball at x = 801 on the 800 by 600
playfield is repositioned to (666, 300) with angle pi and stops. -/
theorem scoring_on_horizontal_exit_witness :
    (translateBall (movePaddles state800)).ball.x > state800.size.x ∧
    ((update state800).ball_is_moving = false ∧
      (update state800).ball =
        ⟨state800.size.x.tdiv 2 + state800.size.x.tdiv 3,
         state800.size.y.tdiv 2⟩ ∧
      (update state800).ball_angle = Real.pi) := by
  have h : (translateBall (movePaddles state800)).ball.x > state800.size.x := by
    rw [translateBall_not_moving _ (by rfl)]
    decide
  exact ⟨h, (scoring_on_horizontal_exit state800).1 h⟩

/-- The clamp lands inside the interval whenever the interval is nonempty. -/
theorem iclamp_mem (v lo hi : ℤ) (h : lo ≤ hi) :
    lo ≤ iclamp v lo hi ∧ iclamp v lo hi ≤ hi := by
  unfold iclamp; omega

/-- Truncating halves and thirds of a nonnegative integer stay in range. -/
theorem tdiv_small_facts (x : ℤ) (hx : 0 ≤ x) :
    0 ≤ x.tdiv 2 ∧ x.tdiv 2 ≤ x ∧ 0 ≤ x.tdiv 3 ∧
    x.tdiv 2 + x.tdiv 3 ≤ x ∧ 0 ≤ x.tdiv 2 - x.tdiv 3 ∧
    x.tdiv 2 - x.tdiv 3 ≤ x := by
  rw [Int.tdiv_eq_ediv hx (by norm_num : (0:ℤ) ≤ 2),
    Int.tdiv_eq_ediv hx (by norm_num : (0:ℤ) ≤ 3)]
  omega

/-- The wall-bounce step yields an in-range vertical ball coordinate. -/
theorem wallBounce_y_mem (s : GameState) (hy : 0 ≤ s.size.y) :
    0 ≤ (wallBounce s).ball.y ∧ (wallBounce s).ball.y ≤ s.size.y := by
  unfold wallBounce
  split
  · exact iclamp_mem _ _ _ hy
  · omega

/-- C6: if after ball translation the vertical position is outside
[0, size.y], the bounce step sets the angle to 2 pi minus the angle and
clamps the vertical position back into [0, size.y] (the tick being exactly
the five steps composed in order); a state whose vertical
position is in range is left untouched by the bounce step no matter its
horizontal position; and after every completed tick the ball's vertical
coordinate lies within [0, size.y]. -/
theorem wall_bounce_vertical :
    (∀ s : GameState, update s = score (collide2 (collide1 (wallBounce
      (translateBall (movePaddles s)))))) ∧
    (∀ s : GameState, s.ball.y < 0 ∨ s.ball.y > s.size.y →
      wallBounce s = { s with
        ball_angle := Real.pi * 2 - s.ball_angle
        ball := ⟨s.ball.x, iclamp s.ball.y 0 s.size.y⟩ }) ∧
    (∀ s : GameState, 0 ≤ s.ball.y → s.ball.y ≤ s.size.y → wallBounce s = s) ∧
    (∀ s : GameState, 0 ≤ s.size.y →
      0 ≤ (update s).ball.y ∧ (update s).ball.y ≤ s.size.y) := by
  refine ⟨fun s => rfl, fun s h => ?_, fun s h1 h2 => ?_, fun s hy => ?_⟩
  · unfold wallBounce; rw [if_pos h]
  · unfold wallBounce; rw [if_neg (by omega)]
  · have hw := wallBounce_y_mem (translateBall (movePaddles s)) (by simpa using hy)
    simp only [translateBall_size, movePaddles_size] at hw
    have hu :
        (collide2 (collide1 (wallBounce (translateBall (movePaddles s))))).ball.y
          = (wallBounce (translateBall (movePaddles s))).ball.y := by simp
    have husz :
        (collide2 (collide1 (wallBounce (translateBall (movePaddles s))))).size
          = s.size := by simp
    unfold update
    set u := collide2 (collide1 (wallBounce (translateBall (movePaddles s)))) with hudef
    unfold score
    split
    · have := tdiv_small_facts s.size.y hy
      simp only [I16Vec2.add, I16Vec2.tdiv, husz]
      constructor <;> omega
    · split
      · have := tdiv_small_facts s.size.y hy
        simp only [I16Vec2.sub, I16Vec2.tdiv, husz]
        constructor <;> omega
      · rw [hu]; exact hw

/-- Witness for C6 at concrete states: a ball at y = -5 is clamped and its
angle reflected; the in-range state800 is untouched by the bounce step; the
tick keeps state800's vertical ball coordinate within [0, 600]. -/
theorem wall_bounce_vertical_witness :
    (({ state800 with ball := ⟨100, -5⟩ } : GameState).ball.y < 0 ∨
      ({ state800 with ball := ⟨100, -5⟩ } : GameState).ball.y >
      ({ state800 with ball := ⟨100, -5⟩ } : GameState).size.y) ∧
    wallBounce { state800 with ball := ⟨100, -5⟩ } =
      { ({ state800 with ball := ⟨100, -5⟩ } : GameState) with
        ball_angle := Real.pi * 2 -
          ({ state800 with ball := ⟨100, -5⟩ } : GameState).ball_angle
        ball := ⟨({ state800 with ball := ⟨100, -5⟩ } : GameState).ball.x,
          iclamp ({ state800 with ball := ⟨100, -5⟩ } : GameState).ball.y 0
            ({ state800 with ball := ⟨100, -5⟩ } : GameState).size.y⟩ } ∧
    wallBounce state800 = state800 ∧
    (0 ≤ state800.size.y ∧ 0 ≤ (update state800).ball.y ∧
      (update state800).ball.y ≤ state800.size.y) := by
  refine ⟨Or.inl (by decide), wall_bounce_vertical.2.1 _ (Or.inl (by decide)),
    wall_bounce_vertical.2.2.1 state800 (by decide) (by decide),
    by decide, (wall_bounce_vertical.2.2.2 state800 (by decide)).1,
    (wall_bounce_vertical.2.2.2 state800 (by decide)).2⟩

@[simp] theorem setDirs_size (s : GameState) (d : PlayerDir × PlayerDir) :
    (s.setDirs d).size = s.size := rfl
@[simp] theorem setDirs_ball (s : GameState) (d : PlayerDir × PlayerDir) :
    (s.setDirs d).ball = s.ball := rfl
@[simp] theorem setDirs_moving (s : GameState) (d : PlayerDir × PlayerDir) :
    (s.setDirs d).ball_is_moving = s.ball_is_moving := rfl
@[simp] theorem setDirs_height (s : GameState) (d : PlayerDir × PlayerDir) :
    (s.setDirs d).paddle_height = s.paddle_height := rfl
@[simp] theorem setDirs_player1 (s : GameState) (d : PlayerDir × PlayerDir) :
    (s.setDirs d).player1 = s.player1 := rfl
@[simp] theorem setDirs_player2 (s : GameState) (d : PlayerDir × PlayerDir) :
    (s.setDirs d).player2 = s.player2 := rfl

@[simp] theorem update_size (s : GameState) : (update s).size = s.size := by
  unfold update; simp
@[simp] theorem update_height (s : GameState) :
    (update s).paddle_height = s.paddle_height := by
  unfold update; simp
theorem update_player1 (s : GameState) :
    (update s).player1 = (movePaddles s).player1 := by
  unfold update; simp
theorem update_player2 (s : GameState) :
    (update s).player2 = (movePaddles s).player2 := by
  unfold update; simp

/-- One tick from a state with a sane paddle geometry puts and keeps both
paddles in vertical bounds, and preserves the geometry. -/
theorem tickWith_bounds (s : GameState) (d : PlayerDir × PlayerDir)
    (_h0 : 0 ≤ s.paddle_height) (h1 : s.paddle_height ≤ s.size.y) :
    (0 ≤ (tickWith s d).player1.y ∧
      (tickWith s d).player1.y ≤ s.size.y - s.paddle_height ∧
      0 ≤ (tickWith s d).player2.y ∧
      (tickWith s d).player2.y ≤ s.size.y - s.paddle_height) ∧
    (tickWith s d).size = s.size ∧
    (tickWith s d).paddle_height = s.paddle_height := by
  have hle : (0:ℤ) ≤ s.size.y - s.paddle_height := by omega
  refine ⟨?_, by simp [tickWith], by simp [tickWith]⟩
  unfold tickWith
  rw [update_player1, update_player2]
  have b1 := iclamp_mem ((s.setDirs d).player1.y + dirDelta (s.setDirs d).player1_dir)
    0 (s.size.y - s.paddle_height) hle
  have b2 := iclamp_mem ((s.setDirs d).player2.y + dirDelta (s.setDirs d).player2_dir)
    0 (s.size.y - s.paddle_height) hle
  exact ⟨b1.1, b1.2, b2.1, b2.2⟩

/-- Paddle bounds, once established, survive any further tick sequence. -/
theorem runTicks_keeps_bounds (ds : List (PlayerDir × PlayerDir)) :
    ∀ s : GameState, 0 ≤ s.paddle_height → s.paddle_height ≤ s.size.y →
    0 ≤ s.player1.y → s.player1.y ≤ s.size.y - s.paddle_height →
    0 ≤ s.player2.y → s.player2.y ≤ s.size.y - s.paddle_height →
    0 ≤ (runTicks s ds).player1.y ∧
    (runTicks s ds).player1.y ≤ s.size.y - s.paddle_height ∧
    0 ≤ (runTicks s ds).player2.y ∧
    (runTicks s ds).player2.y ≤ s.size.y - s.paddle_height := by
  induction ds with
  | nil => exact fun s _ _ a b c d => ⟨a, b, c, d⟩
  | cons d ds ih =>
    intro s h0 h1 _ _ _ _
    have hstep := tickWith_bounds s d h0 h1
    have hrun : runTicks s (d :: ds) = runTicks (tickWith s d) ds := rfl
    have hszy : (tickWith s d).size.y = s.size.y := by rw [hstep.2.1]
    have hph : (tickWith s d).paddle_height = s.paddle_height := hstep.2.2
    have := ih (tickWith s d) (by omega) (by omega)
      hstep.1.1 (by omega) hstep.1.2.2.1 (by omega)
    rw [hrun]
    omega

/-- C4: the paddle-movement step shifts each paddle's vertical position by
the fixed paddle speed for Up and Down and leaves it unmoved for Neutral and
Both, then clamps it; given 0 <= paddle_height <= size.y, after every tick
and after every nonempty sequence of ticks under arbitrary intents, both
paddles' vertical positions lie within [0, size.y - paddle_height]. -/
theorem paddles_stay_in_bounds :
    (dirDelta PlayerDir.Up = -PADDLE_SPEED ∧
     dirDelta PlayerDir.Down = PADDLE_SPEED ∧
     dirDelta PlayerDir.Neutral = 0 ∧ dirDelta PlayerDir.Both = 0) ∧
    (∀ s : GameState,
      (movePaddles s).player1.y =
        iclamp (s.player1.y + dirDelta s.player1_dir) 0
          (s.size.y - s.paddle_height) ∧
      (movePaddles s).player2.y =
        iclamp (s.player2.y + dirDelta s.player2_dir) 0
          (s.size.y - s.paddle_height)) ∧
    (∀ s : GameState, 0 ≤ s.paddle_height → s.paddle_height ≤ s.size.y →
      0 ≤ (update s).player1.y ∧
      (update s).player1.y ≤ s.size.y - s.paddle_height ∧
      0 ≤ (update s).player2.y ∧
      (update s).player2.y ≤ s.size.y - s.paddle_height) ∧
    (∀ (s : GameState) (ds : List (PlayerDir × PlayerDir)),
      0 ≤ s.paddle_height → s.paddle_height ≤ s.size.y → ds ≠ [] →
      0 ≤ (runTicks s ds).player1.y ∧
      (runTicks s ds).player1.y ≤ s.size.y - s.paddle_height ∧
      0 ≤ (runTicks s ds).player2.y ∧
      (runTicks s ds).player2.y ≤ s.size.y - s.paddle_height) := by
  refine ⟨⟨rfl, rfl, rfl, rfl⟩, fun s => ⟨rfl, rfl⟩, fun s h0 h1 => ?_, ?_⟩
  · have hle : (0:ℤ) ≤ s.size.y - s.paddle_height := by omega
    rw [update_player1, update_player2]
    have b1 := iclamp_mem (s.player1.y + dirDelta s.player1_dir) 0
      (s.size.y - s.paddle_height) hle
    have b2 := iclamp_mem (s.player2.y + dirDelta s.player2_dir) 0
      (s.size.y - s.paddle_height) hle
    exact ⟨b1.1, b1.2, b2.1, b2.2⟩
  · rintro s (_ | ⟨d, ds⟩) h0 h1 hne
    · exact absurd rfl hne
    · have hstep := tickWith_bounds s d h0 h1
      have hrun : runTicks s (d :: ds) = runTicks (tickWith s d) ds := rfl
      have hszy : (tickWith s d).size.y = s.size.y := by rw [hstep.2.1]
      have hph : (tickWith s d).paddle_height = s.paddle_height := hstep.2.2
      have := runTicks_keeps_bounds ds (tickWith s d) (by omega) (by omega)
        hstep.1.1 (by omega) hstep.1.2.2.1 (by omega)
      rw [hrun]
      omega

/-- Witness for C4 at state800 with one tick of intents (Up, Down). -/
theorem paddles_stay_in_bounds_witness :
    (0 ≤ state800.paddle_height ∧ state800.paddle_height ≤ state800.size.y ∧
      ([((PlayerDir.Up, PlayerDir.Down))] :
        List (PlayerDir × PlayerDir)) ≠ []) ∧
    0 ≤ (runTicks state800 [(PlayerDir.Up, PlayerDir.Down)]).player1.y ∧
    (runTicks state800 [(PlayerDir.Up, PlayerDir.Down)]).player1.y ≤
      state800.size.y - state800.paddle_height ∧
    0 ≤ (runTicks state800 [(PlayerDir.Up, PlayerDir.Down)]).player2.y ∧
    (runTicks state800 [(PlayerDir.Up, PlayerDir.Down)]).player2.y ≤
      state800.size.y - state800.paddle_height := by
  refine ⟨⟨by decide, by decide, by decide⟩, ?_⟩
  exact paddles_stay_in_bounds.2.2.2 state800 [(PlayerDir.Up, PlayerDir.Down)]
    (by decide) (by decide) (by decide)

/-- C9: each driver iteration adds the elapsed time to the accumulator; when
the accumulator strictly exceeds the tick duration, exactly one physics tick
runs, one tick duration is subtracted, and no sleep occurs; otherwise no tick
runs and the driver sleeps for half a tick duration; over any run, the final
accumulator plus one tick duration per performed tick equals the initial
accumulator plus the total elapsed time, so any surplus is preserved rather
than reset. -/
theorem driver_fixed_timestep :
    (∀ delta elapsed : ℕ, FRAME_TIME < delta + elapsed →
      driverStep delta elapsed = (delta + elapsed - FRAME_TIME, 1, 0)) ∧
    (∀ delta elapsed : ℕ, delta + elapsed ≤ FRAME_TIME →
      driverStep delta elapsed = (delta + elapsed, 0, FRAME_TIME / 2)) ∧
    (∀ (delta : ℕ) (els : List ℕ),
      (driverRun delta els).1 + FRAME_TIME * (driverRun delta els).2 =
        delta + els.sum) ∧
    (∀ (delta : ℕ) (els : List ℕ), (driverRun delta els).2 ≤ els.length) := by
  have hstep1 : ∀ delta elapsed : ℕ, FRAME_TIME < delta + elapsed →
      driverStep delta elapsed = (delta + elapsed - FRAME_TIME, 1, 0) := by
    intro delta elapsed h
    unfold driverStep
    rw [if_pos h]
  have hstep2 : ∀ delta elapsed : ℕ, delta + elapsed ≤ FRAME_TIME →
      driverStep delta elapsed = (delta + elapsed, 0, FRAME_TIME / 2) := by
    intro delta elapsed h
    unfold driverStep
    rw [if_neg (by omega)]
  refine ⟨hstep1, hstep2, fun delta els => ?_, fun delta els => ?_⟩
  · induction els generalizing delta with
    | nil => simp [driverRun]
    | cons e es ih =>
      show (driverRun (driverStep delta e).1 es).1 +
        FRAME_TIME * ((driverStep delta e).2.1 +
          (driverRun (driverStep delta e).1 es).2) = delta + (e :: es).sum
      by_cases h : FRAME_TIME < delta + e
      · rw [hstep1 delta e h]
        have := ih (delta + e - FRAME_TIME)
        simp only [List.sum_cons, Nat.mul_add, Nat.mul_one, Nat.zero_add]
        simp only [Nat.mul_add, Nat.mul_one] at this ⊢
        omega
      · rw [hstep2 delta e (by omega)]
        have := ih (delta + e)
        simp only [List.sum_cons, Nat.zero_add]
        omega
  · induction els generalizing delta with
    | nil => simp [driverRun]
    | cons e es ih =>
      show (driverStep delta e).2.1 +
        (driverRun (driverStep delta e).1 es).2 ≤ (e :: es).length
      by_cases h : FRAME_TIME < delta + e
      · rw [hstep1 delta e h]
        have := ih (delta + e - FRAME_TIME)
        simp only [List.length_cons]
        omega
      · rw [hstep2 delta e (by omega)]
        have := ih (delta + e)
        simp only [List.length_cons]
        omega

/-- Witness for C9: an accumulator of 30 ms plus 5 ms elapsed exceeds the
33 ms tick duration, so one tick runs and 2 ms of surplus is kept; 10 ms
plus 5 ms does not, so the driver sleeps 16.5 ms. -/
theorem driver_fixed_timestep_witness :
    (FRAME_TIME < 30000000 + 5000000 ∧
      driverStep 30000000 5000000 = (2000000, 1, 0)) ∧
    (10000000 + 5000000 ≤ FRAME_TIME ∧
      driverStep 10000000 5000000 = (15000000, 0, 16500000)) := by
  constructor
  · refine ⟨by decide, ?_⟩
    have := driver_fixed_timestep.1 30000000 5000000 (by decide)
    simpa [FRAME_TIME] using this
  · refine ⟨by decide, ?_⟩
    have := driver_fixed_timestep.2.1 10000000 5000000 (by decide)
    simpa [FRAME_TIME] using this

@[simp] theorem handle_press_ball (s : GameState) (k : Key) (st : KeyState) :
    (s.handle_press k st).ball = s.ball := by
  cases k <;> cases st <;> rfl

@[simp] theorem handle_press_size (s : GameState) (k : Key) (st : KeyState) :
    (s.handle_press k st).size = s.size := by
  cases k <;> cases st <;> rfl

theorem handle_press_pressed (s : GameState) (k : Key) :
    (s.handle_press k KeyState.Pressed).ball_is_moving = true := by
  cases k <;> rfl

theorem handle_press_released (s : GameState) (k : Key) :
    (s.handle_press k KeyState.Released).ball_is_moving = s.ball_is_moving := by
  cases k <;> rfl

/-- A tick whose translated ball exits horizontally stops the ball. -/
theorem update_moving_of_exit (s : GameState)
    (h : (translateBall (movePaddles s)).ball.x > s.size.x ∨
      (translateBall (movePaddles s)).ball.x < 0) :
    (update s).ball_is_moving = false := by
  unfold update
  by_cases hgt :
      (collide2 (collide1 (wallBounce (translateBall (movePaddles s))))).ball.x >
      (collide2 (collide1 (wallBounce (translateBall (movePaddles s))))).size.x
  · rw [score_of_gt _ hgt]
  · have hlt :
        (collide2 (collide1 (wallBounce (translateBall (movePaddles s))))).ball.x
          < 0 := by
      simp only [collide2_ball, collide1_ball, collide2_size, collide1_size,
        wallBounce_ball_x, wallBounce_size, translateBall_size,
        movePaddles_size] at hgt ⊢
      rcases h with h | h
      · exact absurd h hgt
      · exact h
    rw [score_of_lt _ hgt hlt]

/-- A tick whose translated ball stays horizontally inside leaves the
movement flag unchanged. -/
theorem update_moving_of_inside (s : GameState)
    (h1 : ¬ (translateBall (movePaddles s)).ball.x > s.size.x)
    (h2 : ¬ (translateBall (movePaddles s)).ball.x < 0) :
    (update s).ball_is_moving = s.ball_is_moving := by
  unfold update
  rw [score_of_inside _ (by simpa using h1) (by simpa using h2)]
  simp

/-- A tick never starts a resting ball. -/
theorem update_moving_false (s : GameState) (h : s.ball_is_moving = false) :
    (update s).ball_is_moving = false := by
  unfold update
  by_cases hgt :
      (collide2 (collide1 (wallBounce (translateBall (movePaddles s))))).ball.x >
      (collide2 (collide1 (wallBounce (translateBall (movePaddles s))))).size.x
  · rw [score_of_gt _ hgt]
  · by_cases hlt :
        (collide2 (collide1 (wallBounce (translateBall (movePaddles s))))).ball.x
          < 0
    · rw [score_of_lt _ hgt hlt]
    · rw [score_of_inside _ hgt hlt]; simpa using h

/-- A trace without presses keeps a resting ball resting. -/
theorem no_press_keeps_resting (l : List GEvent) :
    ∀ s : GameState, s.ball_is_moving = false →
    (∀ e ∈ l, e.press_flag = false) →
    (runTrace s l).ball_is_moving = false := by
  induction l with
  | nil => exact fun s h _ => h
  | cons e es ih =>
    intro s h hl
    have hrun : runTrace s (e :: es) = runTrace (stepEvent s e) es := rfl
    rw [hrun]
    refine ih (stepEvent s e) ?_ fun e' he' => hl e' (List.mem_cons_of_mem _ he')
    cases e with
    | tick => exact update_moving_false s h
    | key k st =>
      cases st with
      | Pressed =>
        exact absurd (hl _ (List.mem_cons_self _ _)) (by simp [GEvent.press_flag])
      | Released => rw [show stepEvent s (GEvent.key k KeyState.Released) =
          s.handle_press k KeyState.Released from rfl, handle_press_released, h]

/-- C7: the ball-moving flag is false at construction, any handled press of
any recognized key sets it true, releases never change it, a tick sets it
false exactly when the translated ball exits horizontally (a scoring event)
and otherwise leaves it unchanged, and along any trace of ticks and handled
key events containing no press the flag stays false. -/
theorem ball_moving_lifecycle :
    (∀ size : I16Vec2, (GameState.new size).ball_is_moving = false) ∧
    (∀ (s : GameState) (k : Key),
      (s.handle_press k KeyState.Pressed).ball_is_moving = true) ∧
    (∀ (s : GameState) (k : Key),
      (s.handle_press k KeyState.Released).ball_is_moving =
        s.ball_is_moving) ∧
    (∀ s : GameState,
      (translateBall (movePaddles s)).ball.x > s.size.x ∨
        (translateBall (movePaddles s)).ball.x < 0 →
      (update s).ball_is_moving = false) ∧
    (∀ s : GameState,
      ¬ (translateBall (movePaddles s)).ball.x > s.size.x →
      ¬ (translateBall (movePaddles s)).ball.x < 0 →
      (update s).ball_is_moving = s.ball_is_moving) ∧
    (∀ (size : I16Vec2) (l : List GEvent),
      (∀ e ∈ l, e.press_flag = false) →
      (runTrace (GameState.new size) l).ball_is_moving = false) :=
  ⟨fun _ => rfl, handle_press_pressed, handle_press_released,
    update_moving_of_exit, update_moving_of_inside,
    fun _ l h => no_press_keeps_resting l _ rfl h⟩

/-- Witness for C7: pressing Space from state800 starts the ball; a tick from
state800 (whose resting ball sits at x = 801 past the right edge) stops it;
a tick-then-release trace from a fresh 800 by 600 game leaves it resting. -/
theorem ball_moving_lifecycle_witness :
    (state800.handle_press Key.Space KeyState.Pressed).ball_is_moving = true ∧
    (((translateBall (movePaddles state800)).ball.x > state800.size.x ∨
        (translateBall (movePaddles state800)).ball.x < 0) ∧
      (update state800).ball_is_moving = false) ∧
    ((∀ e ∈ [GEvent.tick, GEvent.key Key.W KeyState.Released],
        e.press_flag = false) ∧
      (runTrace (GameState.new ⟨800, 600⟩)
        [GEvent.tick, GEvent.key Key.W KeyState.Released]).ball_is_moving =
        false) := by
  have hexit : (translateBall (movePaddles state800)).ball.x >
      state800.size.x ∨ (translateBall (movePaddles state800)).ball.x < 0 := by
    left
    rw [translateBall_not_moving _ (by rfl)]
    decide
  have hnop : ∀ e ∈ [GEvent.tick, GEvent.key Key.W KeyState.Released],
      GEvent.press_flag e = false := by
    intro e he
    simp only [List.mem_cons, List.not_mem_nil, or_false] at he
    rcases he with rfl | rfl <;> rfl
  refine ⟨ball_moving_lifecycle.2.1 state800 Key.Space,
    ⟨hexit, ball_moving_lifecycle.2.2.2.1 state800 hexit⟩,
    ⟨hnop, ball_moving_lifecycle.2.2.2.2.2 ⟨800, 600⟩ _ hnop⟩⟩

/-- A resting in-bounds ball is untouched by one tick, which also keeps it
resting. -/
theorem update_stationary (s : GameState) (hm : s.ball_is_moving = false)
    (hb : ballInBounds s) :
    (update s).ball = s.ball ∧ (update s).ball_is_moving = false := by
  obtain ⟨hx0, hx1, hy0, hy1⟩ := hb
  have ht : translateBall (movePaddles s) = movePaddles s :=
    translateBall_not_moving _ (by simpa using hm)
  have hwb : wallBounce (movePaddles s) = movePaddles s := by
    unfold wallBounce
    rw [if_neg]
    simp only [movePaddles_ball, movePaddles_size]
    omega
  unfold update
  rw [ht, hwb]
  rw [score_of_inside _ (by simp; omega) (by simp; omega)]
  constructor
  · simp
  · simpa using hm

theorem movingInv_new (size : I16Vec2) (hx : 0 ≤ size.x) (hy : 0 ≤ size.y) :
    movingInv (GameState.new size) := by
  have fx := tdiv_small_facts size.x hx
  have fy := tdiv_small_facts size.y hy
  exact ⟨hx, hy, fun _ =>
    ⟨fx.1, fx.2.1, fy.1, fy.2.1⟩⟩

theorem movingInv_handle_press (s : GameState) (k : Key) (st : KeyState)
    (h : movingInv s) : movingInv (s.handle_press k st) := by
  refine ⟨by simpa using h.1, by simpa using h.2.1, fun hm => ?_⟩
  cases st with
  | Pressed => rw [handle_press_pressed] at hm; exact absurd hm (by simp)
  | Released =>
    rw [handle_press_released] at hm
    have hb := h.2.2 hm
    unfold ballInBounds at hb ⊢
    simpa using hb

theorem movingInv_update (s : GameState) (h : movingInv s) :
    movingInv (update s) := by
  refine ⟨by simpa using h.1, by simpa using h.2.1, fun hm => ?_⟩
  have fx := tdiv_small_facts s.size.x h.1
  have fy := tdiv_small_facts s.size.y h.2.1
  by_cases hgt :
      (collide2 (collide1 (wallBounce (translateBall (movePaddles s))))).ball.x >
      (collide2 (collide1 (wallBounce (translateBall (movePaddles s))))).size.x
  · have : update s = score
        (collide2 (collide1 (wallBounce (translateBall (movePaddles s))))) := rfl
    rw [this, score_of_gt _ hgt]
    unfold ballInBounds
    simp only [I16Vec2.add, I16Vec2.tdiv]
    simp only [collide2_size, collide1_size, wallBounce_size,
      translateBall_size, movePaddles_size]
    constructor; · omega
    constructor; · omega
    constructor; · omega
    · omega
  · by_cases hlt :
        (collide2 (collide1 (wallBounce (translateBall (movePaddles s))))).ball.x
          < 0
    · have : update s = score
          (collide2 (collide1 (wallBounce (translateBall (movePaddles s))))) := rfl
      rw [this, score_of_lt _ hgt hlt]
      unfold ballInBounds
      simp only [I16Vec2.sub, I16Vec2.tdiv]
      simp only [collide2_size, collide1_size, wallBounce_size,
        translateBall_size, movePaddles_size]
      constructor; · omega
      constructor; · omega
      constructor; · omega
      · omega
    · have hupd : update s = collide2 (collide1 (wallBounce
          (translateBall (movePaddles s)))) := by
        unfold update
        rw [score_of_inside _ hgt hlt]
      rw [hupd] at hm ⊢
      simp only [collide2_moving, collide1_moving, wallBounce_moving,
        translateBall_moving, movePaddles_moving] at hm
      have hball := h.2.2 hm
      have ht : translateBall (movePaddles s) = movePaddles s :=
        translateBall_not_moving _ (by simpa using hm)
      have hwy := wallBounce_y_mem (translateBall (movePaddles s))
        (by simpa using h.2.1)
      unfold ballInBounds
      simp only [collide2_ball, collide1_ball, collide2_size, collide1_size,
        wallBounce_size, wallBounce_ball_x, translateBall_size,
        movePaddles_size, translateBall_size] at hwy ⊢
      rw [ht] at hwy ⊢
      simp only [movePaddles_ball, movePaddles_size] at hwy ⊢
      exact ⟨hball.1, hball.2.1, hwy.1, hwy.2⟩

theorem movingInv_runTrace (l : List GEvent) :
    ∀ s : GameState, movingInv s → movingInv (runTrace s l) := by
  induction l with
  | nil => exact fun s h => h
  | cons e es ih =>
    intro s h
    have hrun : runTrace s (e :: es) = runTrace (stepEvent s e) es := rfl
    rw [hrun]
    refine ih (stepEvent s e) ?_
    cases e with
    | tick => exact movingInv_update s h
    | key k st => exact movingInv_handle_press s k st h

/-- A resting in-invariant state is unchanged in ball position by any
sequence of ticks under arbitrary intents. -/
theorem runTicks_stationary (ds : List (PlayerDir × PlayerDir)) :
    ∀ s : GameState, movingInv s → s.ball_is_moving = false →
    (runTicks s ds).ball = s.ball := by
  induction ds with
  | nil => exact fun s _ _ => rfl
  | cons d ds ih =>
    intro s h hm
    have hrun : runTicks s (d :: ds) = runTicks (tickWith s d) ds := rfl
    have hsdinv : movingInv (s.setDirs d) := by
      obtain ⟨a, b, c⟩ := h
      exact ⟨by simpa using a, by simpa using b, fun hm' => by
        have := c (by simpa using hm')
        unfold ballInBounds at this ⊢
        simpa using this⟩
    have hsdm : (s.setDirs d).ball_is_moving = false := by simpa using hm
    have hstep := update_stationary (s.setDirs d) hsdm (hsdinv.2.2 hsdm)
    have htw : tickWith s d = update (s.setDirs d) := rfl
    rw [hrun, ih (tickWith s d) (by rw [htw]; exact movingInv_update _ hsdinv)
      (by rw [htw]; exact hstep.2), htw, hstep.1]
    rfl

/-- C8: in every state reachable from construction on a playfield of
nonnegative size by handled events, if the ball is not moving then any
number of further physics ticks, under arbitrary intents and hence arbitrary
paddle positions, leaves the ball position (both coordinates) unchanged. -/
theorem resting_ball_never_moves (size : I16Vec2) (l : List GEvent)
    (ds : List (PlayerDir × PlayerDir)) (hx : 0 ≤ size.x) (hy : 0 ≤ size.y)
    (hm : (runTrace (GameState.new size) l).ball_is_moving = false) :
    (runTicks (runTrace (GameState.new size) l) ds).ball =
      (runTrace (GameState.new size) l).ball :=
  runTicks_stationary ds _
    (movingInv_runTrace l _ (movingInv_new size hx hy)) hm

/-- Witness for C8: from a fresh 800 by 600 game after one tick and one
release, two further ticks with pushed paddles leave the resting ball at the
center. -/
theorem resting_ball_never_moves_witness :
    ((0:ℤ) ≤ (800:ℤ) ∧ (0:ℤ) ≤ (600:ℤ) ∧
      (runTrace (GameState.new ⟨800, 600⟩)
        [GEvent.tick, GEvent.key Key.S KeyState.Released]).ball_is_moving =
        false) ∧
    (runTicks (runTrace (GameState.new ⟨800, 600⟩)
        [GEvent.tick, GEvent.key Key.S KeyState.Released])
        [(PlayerDir.Up, PlayerDir.Up), (PlayerDir.Down, PlayerDir.Both)]).ball =
      (runTrace (GameState.new ⟨800, 600⟩)
        [GEvent.tick, GEvent.key Key.S KeyState.Released]).ball := by
  have hm : (runTrace (GameState.new ⟨800, 600⟩)
      [GEvent.tick, GEvent.key Key.S KeyState.Released]).ball_is_moving =
      false := by
    refine no_press_keeps_resting _ _ rfl ?_
    intro e he
    simp only [List.mem_cons, List.not_mem_nil, or_false] at he
    rcases he with rfl | rfl <;> rfl
  exact ⟨⟨by norm_num, by norm_num, hm⟩,
    resting_ball_never_moves ⟨800, 600⟩ _ _ (by norm_num) (by norm_num) hm⟩

/-- When the paddle-1 collision fires, the impact point is strictly inside
the paddle, so the paddle is at least 2 tall and its truncated half-height is
at least 1. -/
theorem collides1_geometry (s : GameState) (h : collides1 s) :
    1 ≤ s.ball.y - s.player1.y ∧
    s.ball.y - s.player1.y ≤ s.paddle_height - 1 ∧
    1 ≤ s.paddle_height.tdiv 2 ∧
    s.ball.y - s.player1.y ≤ 2 * s.paddle_height.tdiv 2 := by
  obtain ⟨_, _, hy1, hy2, _⟩ := h
  have hh2 : 2 ≤ s.paddle_height := by omega
  have hed : s.paddle_height.tdiv 2 = s.paddle_height / 2 :=
    Int.tdiv_eq_ediv (by omega) (by norm_num)
  refine ⟨by omega, by omega, by omega, by omega⟩

theorem collides2_geometry (s : GameState) (h : collides2 s) :
    1 ≤ s.ball.y - s.player2.y ∧
    s.ball.y - s.player2.y ≤ s.paddle_height - 1 ∧
    1 ≤ s.paddle_height.tdiv 2 ∧
    s.ball.y - s.player2.y ≤ 2 * s.paddle_height.tdiv 2 := by
  obtain ⟨_, _, hy1, hy2, _⟩ := h
  have hh2 : 2 ≤ s.paddle_height := by omega
  have hed : s.paddle_height.tdiv 2 = s.paddle_height / 2 :=
    Int.tdiv_eq_ediv (by omega) (by norm_num)
  refine ⟨by omega, by omega, by omega, by omega⟩

/-- The normalized impact offset of a firing paddle-1 collision is in
[-1, 1]. -/
theorem collisionPos1_mem (s : GameState) (h : collides1 s) :
    -1 ≤ collisionPos1 s ∧ collisionPos1 s ≤ 1 := by
  obtain ⟨hd1, hd2, hk1, hdk⟩ := collides1_geometry s h
  have hkR : (0:ℝ) < ((s.paddle_height.tdiv 2 : ℤ) : ℝ) := by
    exact_mod_cast by omega
  unfold collisionPos1
  have hcast :
      -(((s.paddle_height.tdiv 2) - (s.ball.y - s.player1.y) : ℤ) : ℝ) =
      (((s.ball.y - s.player1.y) - s.paddle_height.tdiv 2 : ℤ) : ℝ) := by
    push_cast; ring
  rw [hcast]
  constructor
  · rw [le_div_iff₀ hkR]
    have : (-1 : ℝ) * ((s.paddle_height.tdiv 2 : ℤ) : ℝ) =
        ((-(s.paddle_height.tdiv 2) : ℤ) : ℝ) := by push_cast; ring
    rw [this]
    exact_mod_cast by omega
  · rw [div_le_one hkR]
    exact_mod_cast by omega

/-- The normalized impact offset of a firing paddle-2 collision is in
[-1, 1]. -/
theorem collisionPos2_mem (s : GameState) (h : collides2 s) :
    -1 ≤ collisionPos2 s ∧ collisionPos2 s ≤ 1 := by
  obtain ⟨hd1, hd2, hk1, hdk⟩ := collides2_geometry s h
  have hkR : (0:ℝ) < ((s.paddle_height.tdiv 2 : ℤ) : ℝ) := by
    exact_mod_cast by omega
  unfold collisionPos2
  constructor
  · rw [le_div_iff₀ hkR]
    have : (-1 : ℝ) * ((s.paddle_height.tdiv 2 : ℤ) : ℝ) =
        ((-(s.paddle_height.tdiv 2) : ℤ) : ℝ) := by push_cast; ring
    rw [this]
    exact_mod_cast by omega
  · rw [div_le_one hkR]
    exact_mod_cast by omega

/-- An offset in [-1, 1] scaled by the maximum reflection angle stays within
[-pi/4, pi/4]. -/
theorem reflect_angle_mem (p : ℝ) (h1 : -1 ≤ p) (h2 : p ≤ 1) :
    -(Real.pi / 4) ≤ MAX_REFLECT_ANGLE * p ∧
    MAX_REFLECT_ANGLE * p ≤ Real.pi / 4 := by
  unfold MAX_REFLECT_ANGLE
  have hpi := Real.pi_pos
  constructor <;> nlinarith

/-- C5: whenever a paddle collision fires, the normalized impact offset lies
in [-1, 1]; the outgoing angle is MAX_REFLECT_ANGLE times the offset for
paddle 1, hence in [-pi/4, pi/4] with positive cosine (rightward travel),
and MAX_REFLECT_ANGLE times the offset minus pi for paddle 2, with negative
cosine (leftward travel); and the outgoing angle is strictly monotone in the
offset for both paddles, so the reflection never produces an angle with the
wrong sign of horizontal travel. -/
theorem paddle_reflection_bounded :
    (∀ s : GameState, collides1 s →
      (-1 ≤ collisionPos1 s ∧ collisionPos1 s ≤ 1) ∧
      (collide1 s).ball_angle = MAX_REFLECT_ANGLE * collisionPos1 s ∧
      -(Real.pi / 4) ≤ (collide1 s).ball_angle ∧
      (collide1 s).ball_angle ≤ Real.pi / 4 ∧
      0 < Real.cos (collide1 s).ball_angle) ∧
    (∀ s : GameState, collides2 s →
      (-1 ≤ collisionPos2 s ∧ collisionPos2 s ≤ 1) ∧
      (collide2 s).ball_angle =
        MAX_REFLECT_ANGLE * collisionPos2 s - Real.pi ∧
      Real.cos (collide2 s).ball_angle < 0) ∧
    (∀ a b : ℝ, a < b →
      MAX_REFLECT_ANGLE * a < MAX_REFLECT_ANGLE * b ∧
      MAX_REFLECT_ANGLE * a - Real.pi < MAX_REFLECT_ANGLE * b - Real.pi) := by
  have hpi := Real.pi_pos
  refine ⟨fun s h => ?_, fun s h => ?_, fun a b hab => ?_⟩
  · obtain ⟨hp1, hp2⟩ := collisionPos1_mem s h
    have hangle : (collide1 s).ball_angle =
        MAX_REFLECT_ANGLE * collisionPos1 s := by
      unfold collide1; rw [if_pos h]
    obtain ⟨hb1, hb2⟩ := reflect_angle_mem (collisionPos1 s) hp1 hp2
    refine ⟨⟨hp1, hp2⟩, hangle, by rw [hangle]; exact hb1,
      by rw [hangle]; exact hb2, ?_⟩
    rw [hangle]
    refine Real.cos_pos_of_mem_Ioo ⟨by nlinarith, by nlinarith⟩
  · obtain ⟨hp1, hp2⟩ := collisionPos2_mem s h
    have hangle : (collide2 s).ball_angle =
        MAX_REFLECT_ANGLE * collisionPos2 s - Real.pi := by
      unfold collide2; rw [if_pos h]
    obtain ⟨hb1, hb2⟩ := reflect_angle_mem (collisionPos2 s) hp1 hp2
    refine ⟨⟨hp1, hp2⟩, hangle, ?_⟩
    rw [hangle, Real.cos_sub_pi]
    have : 0 < Real.cos (MAX_REFLECT_ANGLE * collisionPos2 s) :=
      Real.cos_pos_of_mem_Ioo ⟨by nlinarith, by nlinarith⟩
    linarith
  · have hq : (0:ℝ) < MAX_REFLECT_ANGLE := by
      unfold MAX_REFLECT_ANGLE; positivity
    constructor
    · exact mul_lt_mul_of_pos_left hab hq
    · have := mul_lt_mul_of_pos_left hab hq
      linarith

/-- Witness for C5: a leftward ball inside paddle 1's rectangle and a
rightward ball inside paddle 2's rectangle both fire their collisions, with
all the stated bounds. -/
theorem paddle_reflection_bounded_witness :
    (collides1 { state800 with ball := ⟨100, 300⟩, ball_angle := Real.pi } ∧
      ((-1 ≤ collisionPos1
          { state800 with ball := ⟨100, 300⟩, ball_angle := Real.pi } ∧
        collisionPos1
          { state800 with ball := ⟨100, 300⟩, ball_angle := Real.pi } ≤ 1) ∧
      (collide1
          { state800 with ball := ⟨100, 300⟩, ball_angle := Real.pi }).ball_angle
        = MAX_REFLECT_ANGLE * collisionPos1
          { state800 with ball := ⟨100, 300⟩, ball_angle := Real.pi } ∧
      -(Real.pi / 4) ≤ (collide1
          { state800 with ball := ⟨100, 300⟩, ball_angle := Real.pi }).ball_angle ∧
      (collide1
          { state800 with ball := ⟨100, 300⟩, ball_angle := Real.pi }).ball_angle
        ≤ Real.pi / 4 ∧
      0 < Real.cos (collide1
          { state800 with ball := ⟨100, 300⟩, ball_angle := Real.pi }).ball_angle)) ∧
    (collides2 { state800 with ball := ⟨700, 300⟩ } ∧
      Real.cos (collide2 { state800 with ball := ⟨700, 300⟩ }).ball_angle < 0) ∧
    ((0:ℝ) < 1 ∧
      MAX_REFLECT_ANGLE * 0 < MAX_REFLECT_ANGLE * 1) := by
  have hc1 : collides1 { state800 with ball := ⟨100, 300⟩, ball_angle := Real.pi } := by
    refine ⟨by decide, by decide, by decide, by decide, ?_⟩
    show Real.cos Real.pi < 0
    rw [Real.cos_pi]; norm_num
  have hc2 : collides2 { state800 with ball := ⟨700, 300⟩ } := by
    refine ⟨by decide, by decide, by decide, by decide, ?_⟩
    show Real.cos (0:ℝ) > 0
    rw [Real.cos_zero]; norm_num
  exact ⟨⟨hc1, (paddle_reflection_bounded.1 _ hc1)⟩,
    ⟨hc2, (paddle_reflection_bounded.2.1 _ hc2).2.2⟩,
    ⟨by norm_num, (paddle_reflection_bounded.2.2 0 1 (by norm_num)).1⟩⟩

end MainTheorems

end Pongxelflut
